import Mathlib

/-!
Shallow embedding of the DarkCurse user-model game-economy logic
(`src/models/user.ts`, `src/constants.ts`, `src/controllers/main/overview.ts`)
and proofs about it.

JavaScript numbers that only ever hold integers are modelled as `Nat` or
`Int` (`Int` where the code can drive them negative).  The one genuinely
floating-point computation — the fort-health percentage, whose
`Math.floor((current / max) * 100)` depends on IEEE-754 double rounding —
is left out of this embedding.  Operations that throw on a missing lookup
(`.find(...)` followed by a property access, `Fortifications[level]` on
an absent key) are modelled with `Option`, the `none` case standing for
the thrown `TypeError`.
-/

namespace DarkCurse

/-- Player unit categories, from the union of `type` values appearing in
`src/constants.ts` and `src/models/user.ts`. -/
inductive UnitType
  | CITIZEN
  | WORKER
  | OFFENSE
  | DEFENSE
  | SPY
  | SENTRY
deriving DecidableEq, Repr

/-- A unit a player owns (`PlayerUnit` in the typings): a category, a level
and how many of it the player has. -/
structure PlayerUnit where
  type : UnitType
  level : Nat
  quantity : Int
deriving DecidableEq, Repr

/-- A purchasable unit description (`Unit` in the typings), as listed in the
`UnitTypes` table of `src/constants.ts`. -/
structure Unit where
  name : String
  type : UnitType
  level : Nat
  bonus : Int
  cost : Int
deriving DecidableEq, Repr

/-- One fortification tier from the `Fortifications` table of
`src/constants.ts`. -/
structure Fortification where
  name : String
  levelRequirement : Nat
  hitpoints : Nat
  costPerRepairPoint : Nat
  goldPerTurn : Nat
  defenseBonusPercentage : Nat
  cost : Nat
deriving DecidableEq, Repr

/-- The `Fortifications` constant of `src/constants.ts`, keyed by fort
level, as an association list in key order. -/
def FortificationsList : List (Nat × Fortification) :=
  [ (1, ⟨"Manor", 0, 50, 0, 1000, 0, 0⟩),
    (2, ⟨"Village", 5, 100, 15, 2000, 5, 100000⟩),
    (3, ⟨"Town", 10, 200, 35, 3000, 10, 250000⟩),
    (4, ⟨"Outpost", 15, 300, 75, 4000, 15, 500000⟩),
    (5, ⟨"Outpost Level 2", 20, 500, 125, 5000, 20, 1000000⟩),
    (6, ⟨"Outpost Level 3", 25, 750, 225, 6000, 25, 2000000⟩),
    (7, ⟨"Stronghold", 30, 1000, 325, 7000, 30, 3000000⟩),
    (8, ⟨"Stronghold Level 2", 35, 1500, 450, 8000, 35, 4000000⟩),
    (9, ⟨"Stronghold Level 3", 40, 2000, 550, 9000, 40, 5000000⟩),
    (10, ⟨"Fortress", 45, 2500, 675, 10000, 45, 7500000⟩),
    (11, ⟨"Fortress Level 2", 50, 3000, 750, 11000, 50, 10000000⟩),
    (12, ⟨"Fortress Level 3", 55, 3500, 875, 12000, 55, 15000000⟩),
    (13, ⟨"Citadel", 60, 4000, 1150, 13000, 60, 20000000⟩),
    (14, ⟨"Citadel Level 2", 65, 4500, 1550, 14000, 65, 30000000⟩),
    (15, ⟨"Citadel Level 3", 70, 5000, 1850, 15000, 70, 40000000⟩),
    (16, ⟨"Castle", 75, 5500, 2100, 16000, 75, 50000000⟩),
    (17, ⟨"Castle Level 2", 80, 6000, 2900, 17000, 80, 75000000⟩),
    (18, ⟨"Castle Level 3", 85, 6500, 3600, 18000, 85, 100000000⟩),
    (19, ⟨"Kingdom", 90, 7000, 5000, 19000, 90, 150000000⟩),
    (20, ⟨"Kingdom Level 2", 95, 7500, 6750, 20000, 95, 200000000⟩),
    (21, ⟨"Kingdom Level 3", 100, 8000, 7500, 21000, 100, 250000000⟩),
    (22, ⟨"Empire", 105, 8500, 8250, 22000, 105, 300000000⟩),
    (23, ⟨"Empire Level 2", 110, 9000, 9000, 23000, 110, 350000000⟩),
    (24, ⟨"Empire Level 3", 115, 9500, 9750, 24000, 115, 400000000⟩) ]

/-- Indexing `Fortifications[fortLevel]`: `some` the tier when the key is
present, `none` (the source would dereference `undefined`) otherwise. -/
def Fortifications (fortLevel : Nat) : Option Fortification :=
  (FortificationsList.find? (fun p => p.1 == fortLevel)).map (fun p => p.2)

/-- The `Levels` constant of `src/constants.ts`: pairs of level number and
the experience threshold of that level, in key order. -/
def Levels : List (Nat × Nat) :=
  [(1, 0), (2, 200), (3, 500), (4, 1000)]

/-- The `UnitTypes` constant of `src/constants.ts`. -/
def UnitTypes : List Unit :=
  [ ⟨"Worker", UnitType.WORKER, 1, 65, 2000⟩,
    ⟨"Soldier", UnitType.OFFENSE, 1, 3, 1500⟩,
    ⟨"Knight", UnitType.OFFENSE, 2, 20, 10000⟩,
    ⟨"Berserker", UnitType.OFFENSE, 3, 50, 25000⟩,
    ⟨"Guard", UnitType.DEFENSE, 1, 3, 1500⟩,
    ⟨"Archer", UnitType.DEFENSE, 2, 20, 10000⟩,
    ⟨"Royal Guard", UnitType.DEFENSE, 3, 50, 25000⟩,
    ⟨"Spy", UnitType.SPY, 1, 3, 1500⟩,
    ⟨"Infiltrator", UnitType.SPY, 2, 20, 10000⟩,
    ⟨"Assassin", UnitType.SPY, 3, 50, 25000⟩,
    ⟨"Sentry", UnitType.SENTRY, 1, 3, 1500⟩,
    ⟨"Sentinel", UnitType.SENTRY, 2, 20, 10000⟩,
    ⟨"Inquisitor", UnitType.SENTRY, 3, 50, 25000⟩ ]

/-- The record shape the user DAO returns (`UserData` in
`src/daos/user.ts`), with the fields the `UserModel` constructor copies.
`race` and `class` are string unions in the typings, kept as strings. -/
structure UserData where
  id : Nat
  displayName : String
  email : String
  passwordHash : String
  race : String
  «class» : String
  experience : Nat
  gold : Int
  goldInBank : Int
  fortLevel : Nat
  fortHitpoints : Nat
  attackTurns : Nat
  units : List PlayerUnit
deriving DecidableEq, Repr

/-- The public fields of `UserModel` (`src/models/user.ts`). -/
structure UserModel where
  id : Nat
  displayName : String
  email : String
  passwordHash : String
  race : String
  «class» : String
  experience : Nat
  gold : Int
  goldInBank : Int
  fortLevel : Nat
  fortHitpoints : Nat
  attackTurns : Nat
  units : List PlayerUnit
deriving DecidableEq, Repr

/-- The `UserModel` constructor body: each public field is copied from the
fetched record. -/
def userModelOfData (d : UserData) : UserModel :=
  { id := d.id
    displayName := d.displayName
    email := d.email
    passwordHash := d.passwordHash
    race := d.race
    «class» := d.«class»
    experience := d.experience
    gold := d.gold
    goldInBank := d.goldInBank
    fortLevel := d.fortLevel
    fortHitpoints := d.fortHitpoints
    attackTurns := d.attackTurns
    units := d.units }

/-- Getter `population`: `this.units.reduce((acc, unit) => acc + unit.quantity, 0)`. -/
def population (units : List PlayerUnit) : Int :=
  units.foldl (fun acc u => acc + u.quantity) 0

/-- Getter `citizens`: `this.units.find((unit) => unit.type === 'CITIZEN').quantity`;
`none` models the `TypeError` thrown when `find` yields `undefined`. -/
def citizens (units : List PlayerUnit) : Option Int :=
  (units.find? (fun u => u.type == UnitType.CITIZEN)).map (fun u => u.quantity)

/-- The per-worker map body of `get goldPerTurn()`:
`UnitTypes.find(t => t.type === unit.type && t.level === unit.level).bonus * unit.quantity`
over a list of units, `none` when some lookup misses (the source throws). -/
def workerBonusList : List PlayerUnit → Option (List Int)
  | [] => some []
  | u :: us =>
    match UnitTypes.find? (fun t => t.type == u.type && t.level == u.level) with
    | none => none
    | some t => (workerBonusList us).map (fun rest => t.bonus * u.quantity :: rest)

/-- Getter `goldPerTurn`: worker bonuses summed plus
`Fortifications[this.fortLevel].goldPerTurn`. -/
def goldPerTurn (units : List PlayerUnit) (fortLevel : Nat) : Option Int :=
  match workerBonusList (units.filter (fun u => u.type == UnitType.WORKER)),
      Fortifications fortLevel with
  | some golds, some fort =>
    some (golds.foldl (fun acc gold => acc + gold) 0 + (fort.goldPerTurn : Int))
  | _, _ => none

/-- Insertion step of a descending sort. -/
def sortDescInsert (x : Nat) : List Nat → List Nat
  | [] => [x]
  | y :: ys => if y ≤ x then x :: y :: ys else y :: sortDescInsert x ys

/-- Modelling `.sort((a, b) => b - a)`: the descending sort of a list of numbers. -/
def sortDesc : List Nat → List Nat
  | [] => []
  | x :: xs => sortDescInsert x (sortDesc xs)

/-- Getter `level`: 1 at zero experience, otherwise the level whose
threshold is the largest one strictly below the experience; `none` models
the `TypeError` when no threshold qualifies. -/
def level (experience : Nat) : Option Nat :=
  if experience = 0 then some 1
  else
    match (sortDesc ((Levels.map (fun p => p.2)).filter
        (fun levelXp => experience > levelXp))).head? with
    | none => none
    | some xpOfCurrentLevel =>
      (Levels.find? (fun p => p.2 == xpOfCurrentLevel)).map (fun p => p.1)

/-- Getter `maximumBankDeposits`. -/
def maximumBankDeposits : Int := 1

/-- One bank-history record, with the fields
`fetchAvailableBankDeposits` inspects. -/
structure BankHistory where
  fromUserId : Nat
  fromUserAccount : String
  historyType : String
deriving DecidableEq, Repr

/-- Method `fetchAvailableBankDeposits`, taking the list the bank-history model
returned for the last twenty-four hours as input: the deposit allowance
minus the player's own hand-to-bank transfers in that list. -/
def fetchAvailableBankDeposits (userId : Nat) (depositsUsed : List BankHistory) : Int :=
  let bankingActions := depositsUsed.filter (fun history =>
    history.fromUserId == userId && history.fromUserAccount == "HAND" &&
      history.historyType == "PLAYER_TRANSFER")
  maximumBankDeposits - bankingActions.length

/-- Method `addGold`: the in-memory field update (persistence is external). -/
def addGold (user : UserModel) (amount : Int) : UserModel :=
  { user with gold := user.gold + amount }

/-- Method `subtractGold`: the in-memory field update (persistence is external). -/
def subtractGold (user : UserModel) (amount : Int) : UserModel :=
  { user with gold := user.gold - amount }

/-- Method `addBankedGold`: the in-memory field update. -/
def addBankedGold (user : UserModel) (amount : Int) : UserModel :=
  { user with goldInBank := user.goldInBank + amount }

/-- Method `subtractBankedGold`: the in-memory field update. -/
def subtractBankedGold (user : UserModel) (amount : Int) : UserModel :=
  { user with goldInBank := user.goldInBank - amount }

/-- The lookup `newUnits.find(n => n.type === unit.type && n.level === unit.level)`
used throughout `trainNewUnits`. -/
def matchingNewUnit (newUnits : List PlayerUnit) (u : PlayerUnit) : Option PlayerUnit :=
  newUnits.find? (fun newUnit => newUnit.type == u.type && newUnit.level == u.level)

/-- The `forEach` mutation of `trainNewUnits` seen through shared object
references: a unit with a matching `newUnits` entry gains that (first)
entry's quantity, any other unit is left alone. -/
def addFoundQuantity (newUnits : List PlayerUnit) (u : PlayerUnit) : PlayerUnit :=
  match matchingNewUnit newUnits u with
  | some newUnit => { u with quantity := u.quantity + newUnit.quantity }
  | none => u

/-- The statement `citizenUnits.quantity -= totalNewUnits`: the first CITIZEN entry of
the list loses `total`, the rest is untouched. -/
def subtractFirstCitizen (total : Int) : List PlayerUnit → List PlayerUnit
  | [] => []
  | u :: us =>
    if u.type == UnitType.CITIZEN then
      { u with quantity := u.quantity - total } :: us
    else u :: subtractFirstCitizen total us

/-- Modelling `Object.assign(target, source)` on two dense arrays: the source's
index properties overwrite the target's, the target keeps its tail. -/
def objectAssign (target source : List PlayerUnit) : List PlayerUnit :=
  source ++ target.drop source.length

/-- Method `trainNewUnits` as a function of the units list: `none` when
there is no CITIZEN entry (the source would throw on
`citizenUnits.quantity`).  Mutation of shared objects is written out:
after the `forEach`, `this.units` is the post-citizen-subtraction list
with every matched unit bumped, and `unitsToUpdate` is its matched
sublist. -/
def trainNewUnits (units newUnits : List PlayerUnit) : Option (List PlayerUnit) :=
  match units.find? (fun u => u.type == UnitType.CITIZEN) with
  | none => none
  | some _ =>
    let totalNewUnits := newUnits.foldl (fun acc unit => acc + unit.quantity) 0
    let units1 := subtractFirstCitizen totalNewUnits units
    let unitsToUpdate :=
      (units1.filter (fun u => (matchingNewUnit newUnits u).isSome)).map
        (addFoundQuantity newUnits)
    let units2 := objectAssign unitsToUpdate (units1.map (addFoundQuantity newUnits))
    let newUnitsToAdd := newUnits.filter (fun newUnit =>
      !(units2.any (fun u => u.type == newUnit.type && u.level == newUnit.level)))
    some (units2 ++ newUnitsToAdd)

/-- Static method `fetchById`, with the DAO lookup abstracted as a function: `null` is
passed through, a record is wrapped in the constructor. -/
def fetchById (dao : Nat → Option UserData) (id : Nat) : Option UserModel :=
  match dao id with
  | none => none
  | some user => some (userModelOfData user)

/-- Static method `fetchByEmail`, with the DAO lookup abstracted as a function. -/
def fetchByEmail (dao : String → Option UserData) (email : String) : Option UserModel :=
  match dao email with
  | none => none
  | some user => some (userModelOfData user)

/-- The two outcomes of the overview controller: `res.sendStatus(404)` or
rendering the overview page for the fetched user. -/
inductive OverviewResponse
  | sendStatus404
  | render (user : UserModel)
deriving DecidableEq, Repr

/-- Controller `overviewPage` (`src/controllers/main/overview.ts`): fetch user 1 and
404 exactly when the fetch came back null. -/
def overviewPage (dao : Nat → Option UserData) : OverviewResponse :=
  match fetchById dao 1 with
  | none => OverviewResponse.sendStatus404
  | some user => OverviewResponse.render user

/-- The key by which training matches units: type together with level. -/
def unitKey (u : PlayerUnit) : UnitType × Nat := (u.type, u.level)

/-- The quantity the `newUnits` list contributes to a unit with the given
key: the first matching entry's quantity, zero when nothing matches. -/
def lookupQty (newUnits : List PlayerUnit) (k : UnitType × Nat) : Int :=
  match newUnits.find? (fun nu => nu.type == k.1 && nu.level == k.2) with
  | some nu => nu.quantity
  | none => 0

/-- Written from the claim under scrutiny (not from the source): the
greatest level number in `Levels` whose experience threshold is less than
or equal to the given experience. -/
def levelClaimed (experience : Nat) : Nat :=
  (Levels.filter (fun p => p.2 ≤ experience)).foldl (fun acc p => max acc p.1) 0

/-- Written from the claim: a WORKER unit contributes its matching
`UnitTypes` bonus times its quantity; a unit of any other type
contributes nothing. -/
def unitGoldContribution (u : PlayerUnit) : Int :=
  if u.type = UnitType.WORKER then
    match UnitTypes.find? (fun t => t.type == u.type && t.level == u.level) with
    | some t => t.bonus * u.quantity
    | none => 0
  else 0

/-- Written from the claim: the merged units list — the first CITIZEN
entry loses the total of the new quantities, each pre-existing unit with
a matching new entry gains that entry's quantity, new entries matching no
pre-existing unit are appended unchanged, and every other unit is kept as
it was. -/
def trainedUnitsSpec (units newUnits : List PlayerUnit) : List PlayerUnit :=
  (subtractFirstCitizen ((newUnits.map (fun u => u.quantity)).sum) units).map
      (addFoundQuantity newUnits) ++
    newUnits.filter (fun newUnit =>
      !(units.any (fun u => u.type == newUnit.type && u.level == newUnit.level)))

/-- C5: for every list of bank-history entries covering the last
twenty-four hours, `fetchAvailableBankDeposits` returns
`maximumBankDeposits` (which is always 1) minus the number of entries
whose `fromUserId` is the user's id, whose `fromUserAccount` is `HAND` and
whose `historyType` is `PLAYER_TRANSFER`; entries failing any of the three
conditions do not reduce the result. -/
theorem fetchAvailableBankDeposits_counts_own_hand_transfers
    (userId : Nat) (depositsUsed : List BankHistory) :
    fetchAvailableBankDeposits userId depositsUsed =
      maximumBankDeposits - (depositsUsed.countP (fun history =>
        decide (history.fromUserId = userId ∧ history.fromUserAccount = "HAND" ∧
          history.historyType = "PLAYER_TRANSFER")) : Nat) ∧
    maximumBankDeposits = 1 := by
  refine ⟨?_, rfl⟩
  have hpred : ∀ history ∈ depositsUsed,
      (history.fromUserId == userId && history.fromUserAccount == "HAND" &&
        history.historyType == "PLAYER_TRANSFER")
      = decide (history.fromUserId = userId ∧ history.fromUserAccount = "HAND" ∧
          history.historyType = "PLAYER_TRANSFER") := by
    intro history _
    by_cases h1 : history.fromUserId = userId <;>
      by_cases h2 : history.fromUserAccount = "HAND" <;>
        by_cases h3 : history.historyType = "PLAYER_TRANSFER" <;>
          simp [h1, h2, h3]
  simp only [fetchAvailableBankDeposits]
  rw [List.filter_congr hpred, ← List.countP_eq_length_filter]

/-- C6: the bound `gold ≥ 0` is not enforced: `subtractGold` always sets
`gold` to `gold - amount`, and some state with nonnegative gold is driven
negative by it. -/
theorem subtractGold_not_bounded_below :
    (∀ (user : UserModel) (amount : Int),
        (subtractGold user amount).gold = user.gold - amount) ∧
      ∃ (user : UserModel) (amount : Int),
        0 ≤ user.gold ∧ (subtractGold user amount).gold < 0 := by
  refine ⟨fun user amount => rfl, ?_⟩
  exact ⟨⟨1, "a", "a@b.c", "h", "HUMAN", "FIGHTER", 0, 3, 0, 1, 50, 10, []⟩, 5,
    by decide, by decide⟩

/-- C9: `citizens` reads the quantity of the first CITIZEN unit; whenever
the units list contains a CITIZEN entry the lookup succeeds, so the
undefined-property access cannot fire and the first CITIZEN entry's
quantity is returned. -/
theorem citizens_of_citizen_mem (units : List PlayerUnit)
    (h : ∃ u ∈ units, u.type = UnitType.CITIZEN) :
    ∃ u, units.find? (fun v => v.type == UnitType.CITIZEN) = some u ∧
      u.type = UnitType.CITIZEN ∧ citizens units = some u.quantity := by
  have hs : (units.find? (fun v => v.type == UnitType.CITIZEN)).isSome := by
    rw [List.find?_isSome]
    obtain ⟨u, hu, ht⟩ := h
    exact ⟨u, hu, by simp [ht]⟩
  obtain ⟨u, hu⟩ := Option.isSome_iff_exists.mp hs
  refine ⟨u, hu, ?_, ?_⟩
  · simpa using List.find?_some hu
  · simp [citizens, hu]

/-- Witness for C9 at a concrete units list. -/
theorem citizens_of_citizen_mem_witness :
    ∃ u, ([⟨UnitType.CITIZEN, 1, 7⟩] : List PlayerUnit).find?
        (fun v => v.type == UnitType.CITIZEN) = some u ∧
      u.type = UnitType.CITIZEN ∧
      citizens [⟨UnitType.CITIZEN, 1, 7⟩] = some u.quantity :=
  citizens_of_citizen_mem [⟨UnitType.CITIZEN, 1, 7⟩]
    ⟨⟨UnitType.CITIZEN, 1, 7⟩, by decide, rfl⟩

/-- C10: `addGold` changes exactly the `gold` field, `subtractGold`
likewise, and `addBankedGold` / `subtractBankedGold` change exactly
`goldInBank`; every other public field of the user is untouched. -/
theorem gold_operations_frame (user : UserModel) (amount : Int) :
    ((addGold user amount).gold = user.gold + amount ∧
      (addGold user amount).id = user.id ∧
      (addGold user amount).displayName = user.displayName ∧
      (addGold user amount).email = user.email ∧
      (addGold user amount).passwordHash = user.passwordHash ∧
      (addGold user amount).race = user.race ∧
      (addGold user amount).«class» = user.«class» ∧
      (addGold user amount).experience = user.experience ∧
      (addGold user amount).goldInBank = user.goldInBank ∧
      (addGold user amount).fortLevel = user.fortLevel ∧
      (addGold user amount).fortHitpoints = user.fortHitpoints ∧
      (addGold user amount).attackTurns = user.attackTurns ∧
      (addGold user amount).units = user.units) ∧
    ((subtractGold user amount).gold = user.gold - amount ∧
      (subtractGold user amount).id = user.id ∧
      (subtractGold user amount).displayName = user.displayName ∧
      (subtractGold user amount).email = user.email ∧
      (subtractGold user amount).passwordHash = user.passwordHash ∧
      (subtractGold user amount).race = user.race ∧
      (subtractGold user amount).«class» = user.«class» ∧
      (subtractGold user amount).experience = user.experience ∧
      (subtractGold user amount).goldInBank = user.goldInBank ∧
      (subtractGold user amount).fortLevel = user.fortLevel ∧
      (subtractGold user amount).fortHitpoints = user.fortHitpoints ∧
      (subtractGold user amount).attackTurns = user.attackTurns ∧
      (subtractGold user amount).units = user.units) ∧
    ((addBankedGold user amount).goldInBank = user.goldInBank + amount ∧
      (addBankedGold user amount).id = user.id ∧
      (addBankedGold user amount).displayName = user.displayName ∧
      (addBankedGold user amount).email = user.email ∧
      (addBankedGold user amount).passwordHash = user.passwordHash ∧
      (addBankedGold user amount).race = user.race ∧
      (addBankedGold user amount).«class» = user.«class» ∧
      (addBankedGold user amount).experience = user.experience ∧
      (addBankedGold user amount).gold = user.gold ∧
      (addBankedGold user amount).fortLevel = user.fortLevel ∧
      (addBankedGold user amount).fortHitpoints = user.fortHitpoints ∧
      (addBankedGold user amount).attackTurns = user.attackTurns ∧
      (addBankedGold user amount).units = user.units) ∧
    ((subtractBankedGold user amount).goldInBank = user.goldInBank - amount ∧
      (subtractBankedGold user amount).id = user.id ∧
      (subtractBankedGold user amount).displayName = user.displayName ∧
      (subtractBankedGold user amount).email = user.email ∧
      (subtractBankedGold user amount).passwordHash = user.passwordHash ∧
      (subtractBankedGold user amount).race = user.race ∧
      (subtractBankedGold user amount).«class» = user.«class» ∧
      (subtractBankedGold user amount).experience = user.experience ∧
      (subtractBankedGold user amount).gold = user.gold ∧
      (subtractBankedGold user amount).fortLevel = user.fortLevel ∧
      (subtractBankedGold user amount).fortHitpoints = user.fortHitpoints ∧
      (subtractBankedGold user amount).attackTurns = user.attackTurns ∧
      (subtractBankedGold user amount).units = user.units) := by
  repeat' apply And.intro
  all_goals rfl

/-- C7: `fetchById` and `fetchByEmail` return null exactly when the DAO
lookup yields nothing, otherwise a model whose public fields equal the
fetched record's, and the overview controller responds 404 precisely in
the null case. -/
theorem fetch_null_iff_dao_none (daoById : Nat → Option UserData)
    (daoByEmail : String → Option UserData) (id : Nat) (email : String) :
    (fetchById daoById id = none ↔ daoById id = none) ∧
    (∀ d, daoById id = some d → fetchById daoById id = some (userModelOfData d)) ∧
    (fetchByEmail daoByEmail email = none ↔ daoByEmail email = none) ∧
    (∀ d, daoByEmail email = some d →
      fetchByEmail daoByEmail email = some (userModelOfData d)) ∧
    (∀ d : UserData, (userModelOfData d).id = d.id ∧
      (userModelOfData d).displayName = d.displayName ∧
      (userModelOfData d).email = d.email ∧
      (userModelOfData d).passwordHash = d.passwordHash ∧
      (userModelOfData d).race = d.race ∧
      (userModelOfData d).«class» = d.«class» ∧
      (userModelOfData d).experience = d.experience ∧
      (userModelOfData d).gold = d.gold ∧
      (userModelOfData d).goldInBank = d.goldInBank ∧
      (userModelOfData d).fortLevel = d.fortLevel ∧
      (userModelOfData d).fortHitpoints = d.fortHitpoints ∧
      (userModelOfData d).attackTurns = d.attackTurns ∧
      (userModelOfData d).units = d.units) ∧
    (overviewPage daoById = OverviewResponse.sendStatus404 ↔
      fetchById daoById 1 = none) := by
  refine ⟨?_, ?_, ?_, ?_, ?_, ?_⟩
  · unfold fetchById; cases daoById id <;> simp
  · intro d hd; unfold fetchById; rw [hd]
  · unfold fetchByEmail; cases daoByEmail email <;> simp
  · intro d hd; unfold fetchByEmail; rw [hd]
  · intro d
    repeat' apply And.intro
    all_goals rfl
  · unfold overviewPage; cases fetchById daoById 1 <;> simp

/-- Witness for C7 at a concrete DAO table. -/
theorem fetch_null_iff_dao_none_witness :
    (fetchById
        (fun n => if n = 1 then
          some ⟨1, "a", "a@b.c", "h", "HUMAN", "FIGHTER", 0, 3, 0, 1, 50, 10, []⟩
        else none) 1
      = some (userModelOfData
          ⟨1, "a", "a@b.c", "h", "HUMAN", "FIGHTER", 0, 3, 0, 1, 50, 10, []⟩)) ∧
    (fetchByEmail (fun _ => none) "x@y.z" = none) := by
  constructor
  · exact (fetch_null_iff_dao_none
        (fun n => if n = 1 then
          some ⟨1, "a", "a@b.c", "h", "HUMAN", "FIGHTER", 0, 3, 0, 1, 50, 10, []⟩
        else none)
        (fun _ => none) 1 "x@y.z").2.1 _ rfl
  · exact (fetch_null_iff_dao_none
        (fun _ => none) (fun _ => none) 1 "x@y.z").2.2.1.mpr rfl

theorem level_eq_one_of_le {exp : Nat} (h1 : 0 < exp) (h2 : exp ≤ 200) :
    level exp = some 1 := by
  unfold level
  rw [if_neg (by omega)]
  have hf : (Levels.map (fun p => p.2)).filter (fun levelXp => exp > levelXp) = [0] := by
    simp only [Levels, List.map_cons, List.map_nil]
    rw [List.filter_cons_of_pos (by simpa using h1),
      List.filter_cons_of_neg (by simp only [decide_eq_true_eq]; omega),
      List.filter_cons_of_neg (by simp only [decide_eq_true_eq]; omega),
      List.filter_cons_of_neg (by simp only [decide_eq_true_eq]; omega),
      List.filter_nil]
  rw [hf]
  rfl

theorem level_eq_two_of_le {exp : Nat} (h1 : 200 < exp) (h2 : exp ≤ 500) :
    level exp = some 2 := by
  unfold level
  rw [if_neg (by omega)]
  have hf : (Levels.map (fun p => p.2)).filter (fun levelXp => exp > levelXp) = [0, 200] := by
    simp only [Levels, List.map_cons, List.map_nil]
    rw [List.filter_cons_of_pos (by simp only [decide_eq_true_eq]; omega),
      List.filter_cons_of_pos (by simp only [decide_eq_true_eq]; omega),
      List.filter_cons_of_neg (by simp only [decide_eq_true_eq]; omega),
      List.filter_cons_of_neg (by simp only [decide_eq_true_eq]; omega),
      List.filter_nil]
  rw [hf]
  rfl

theorem level_eq_three_of_le {exp : Nat} (h1 : 500 < exp) (h2 : exp ≤ 1000) :
    level exp = some 3 := by
  unfold level
  rw [if_neg (by omega)]
  have hf : (Levels.map (fun p => p.2)).filter (fun levelXp => exp > levelXp)
      = [0, 200, 500] := by
    simp only [Levels, List.map_cons, List.map_nil]
    rw [List.filter_cons_of_pos (by simp only [decide_eq_true_eq]; omega),
      List.filter_cons_of_pos (by simp only [decide_eq_true_eq]; omega),
      List.filter_cons_of_pos (by simp only [decide_eq_true_eq]; omega),
      List.filter_cons_of_neg (by simp only [decide_eq_true_eq]; omega),
      List.filter_nil]
  rw [hf]
  rfl

theorem level_eq_four_of_lt {exp : Nat} (h1 : 1000 < exp) :
    level exp = some 4 := by
  unfold level
  rw [if_neg (by omega)]
  have hf : (Levels.map (fun p => p.2)).filter (fun levelXp => exp > levelXp)
      = [0, 200, 500, 1000] := by
    simp only [Levels, List.map_cons, List.map_nil]
    rw [List.filter_cons_of_pos (by simp only [decide_eq_true_eq]; omega),
      List.filter_cons_of_pos (by simp only [decide_eq_true_eq]; omega),
      List.filter_cons_of_pos (by simp only [decide_eq_true_eq]; omega),
      List.filter_cons_of_pos (by simp only [decide_eq_true_eq]; omega),
      List.filter_nil]
  rw [hf]
  rfl

/-- C1 counterexample: at experience exactly 200 the getter returns level
1, while the greatest level whose threshold is less than or equal to 200
is level 2 — the claim's `≤` reading of the threshold comparison is
falsified at the boundary. -/
theorem level_claim_false_at_threshold :
    levelClaimed 200 = 2 ∧ level 200 = some 1 ∧
      level 200 ≠ some (levelClaimed 200) := by
  decide

/-- C1 (amended): the getter returns level 1 at experience 0, and for
positive experience it returns the greatest level number in `Levels`
whose experience threshold is strictly less than the experience. -/
theorem level_eq_greatest_strictly_below (exp : Nat) :
    (exp = 0 → level exp = some 1) ∧
    (0 < exp → ∃ l t, level exp = some l ∧ (l, t) ∈ Levels ∧ t < exp ∧
      ∀ p ∈ Levels, p.2 < exp → p.1 ≤ l) := by
  constructor
  · intro h
    subst h
    rfl
  · intro h1
    rcases (show exp ≤ 200 ∨ (200 < exp ∧ exp ≤ 500) ∨ (500 < exp ∧ exp ≤ 1000) ∨
        1000 < exp by omega) with h | ⟨ha, hb⟩ | ⟨ha, hb⟩ | ha
    · refine ⟨1, 0, level_eq_one_of_le h1 h, by decide, h1, ?_⟩
      intro p hp hlt
      simp only [Levels, List.mem_cons, List.not_mem_nil, or_false] at hp
      rcases hp with rfl | rfl | rfl | rfl
      all_goals simp at hlt ⊢
      all_goals omega
    · refine ⟨2, 200, level_eq_two_of_le ha hb, by decide, ha, ?_⟩
      intro p hp hlt
      simp only [Levels, List.mem_cons, List.not_mem_nil, or_false] at hp
      rcases hp with rfl | rfl | rfl | rfl
      all_goals simp at hlt ⊢
      all_goals omega
    · refine ⟨3, 500, level_eq_three_of_le ha hb, by decide, ha, ?_⟩
      intro p hp hlt
      simp only [Levels, List.mem_cons, List.not_mem_nil, or_false] at hp
      rcases hp with rfl | rfl | rfl | rfl
      all_goals simp at hlt ⊢
      all_goals omega
    · refine ⟨4, 1000, level_eq_four_of_lt ha, by decide, ha, ?_⟩
      intro p hp hlt
      simp only [Levels, List.mem_cons, List.not_mem_nil, or_false] at hp
      rcases hp with rfl | rfl | rfl | rfl
      all_goals simp

/-- Witness for the amended C1 at experience 700. -/
theorem level_eq_greatest_strictly_below_witness :
    ∃ l t, level 700 = some l ∧ (l, t) ∈ Levels ∧ t < 700 ∧
      ∀ p ∈ Levels, p.2 < 700 → p.1 ≤ l :=
  (level_eq_greatest_strictly_below 700).2 (by omega)

theorem foldl_add_int (l : List Int) (c : Int) :
    l.foldl (fun acc gold => acc + gold) c = c + l.sum := by
  induction l generalizing c with
  | nil => simp
  | cons x xs ih => simp [ih, add_assoc]

theorem foldl_add_quantity (l : List PlayerUnit) (c : Int) :
    l.foldl (fun acc unit => acc + unit.quantity) c
      = c + (l.map (fun u => u.quantity)).sum := by
  induction l generalizing c with
  | nil => simp
  | cons u us ih => simp [ih, add_assoc]

theorem workerBonusList_of_found (units : List PlayerUnit)
    (hw : ∀ u ∈ units, u.type = UnitType.WORKER →
      (UnitTypes.find? (fun t => t.type == u.type && t.level == u.level)).isSome) :
    ∃ golds, workerBonusList (units.filter (fun u => u.type == UnitType.WORKER))
        = some golds ∧
      golds.sum = (units.map unitGoldContribution).sum := by
  induction units with
  | nil => exact ⟨[], rfl, by simp⟩
  | cons u us ih =>
    obtain ⟨golds, hg, hsum⟩ := ih (fun v hv => hw v (List.mem_cons_of_mem _ hv))
    by_cases ht : u.type = UnitType.WORKER
    · obtain ⟨t, htt⟩ := Option.isSome_iff_exists.mp
        (hw u (List.mem_cons_self _ _) ht)
      refine ⟨t.bonus * u.quantity :: golds, ?_, ?_⟩
      · rw [List.filter_cons_of_pos (by simp [ht])]
        unfold workerBonusList
        rw [htt, hg]
        rfl
      · simp only [List.sum_cons, List.map_cons, hsum, unitGoldContribution,
          if_pos ht, htt]
    · refine ⟨golds, ?_, ?_⟩
      · rw [List.filter_cons_of_neg (by simp [ht])]
        exact hg
      · simp [unitGoldContribution, ht, hsum]

/-- C2: when the fort level is a key of the fortifications table and every
WORKER unit has a matching `UnitTypes` entry, `goldPerTurn` is the sum
over the units of their gold contribution — bonus times quantity for a
WORKER, nothing for any other type — plus the tier's `goldPerTurn`. -/
theorem goldPerTurn_eq_worker_sum_add_fort
    (units : List PlayerUnit) (fortLevel : Nat) (fort : Fortification)
    (hf : Fortifications fortLevel = some fort)
    (hw : ∀ u ∈ units, u.type = UnitType.WORKER →
      (UnitTypes.find? (fun t => t.type == u.type && t.level == u.level)).isSome) :
    goldPerTurn units fortLevel =
      some ((units.map unitGoldContribution).sum + (fort.goldPerTurn : Int)) := by
  obtain ⟨golds, hg, hsum⟩ := workerBonusList_of_found units hw
  unfold goldPerTurn
  rw [hg, hf]
  simp only [foldl_add_int, zero_add, hsum]

/-- Witness for C2: two workers and five soldiers on fort level 1. -/
theorem goldPerTurn_eq_worker_sum_add_fort_witness :
    goldPerTurn [⟨UnitType.WORKER, 1, 2⟩, ⟨UnitType.OFFENSE, 1, 5⟩] 1 = some 1130 :=
  (goldPerTurn_eq_worker_sum_add_fort
    [⟨UnitType.WORKER, 1, 2⟩, ⟨UnitType.OFFENSE, 1, 5⟩] 1
    ⟨"Manor", 0, 50, 0, 1000, 0, 0⟩ (by decide) (by decide)).trans (by decide)

theorem objectAssign_of_le (target source : List PlayerUnit)
    (h : target.length ≤ source.length) :
    objectAssign target source = source := by
  unfold objectAssign
  rw [List.drop_eq_nil_of_le h, List.append_nil]

theorem addFoundQuantity_key (newUnits : List PlayerUnit) (u : PlayerUnit) :
    unitKey (addFoundQuantity newUnits u) = unitKey u := by
  unfold addFoundQuantity
  cases matchingNewUnit newUnits u <;> rfl

theorem subtractFirstCitizen_key (total : Int) (units : List PlayerUnit) :
    (subtractFirstCitizen total units).map unitKey = units.map unitKey := by
  induction units with
  | nil => rfl
  | cons u us ih =>
    unfold subtractFirstCitizen
    by_cases h : (u.type == UnitType.CITIZEN) = true
    · rw [if_pos h]
      rfl
    · rw [if_neg h, List.map_cons, List.map_cons, ih]

theorem train_units2_key (newUnits units : List PlayerUnit) (total : Int) :
    ((subtractFirstCitizen total units).map (addFoundQuantity newUnits)).map unitKey
      = units.map unitKey := by
  rw [List.map_map,
    show unitKey ∘ addFoundQuantity newUnits = unitKey from
      funext (fun u => addFoundQuantity_key newUnits u),
    subtractFirstCitizen_key]

theorem any_match_eq_of_key_eq (l1 : List PlayerUnit) :
    ∀ l2 : List PlayerUnit, l1.map unitKey = l2.map unitKey →
      ∀ (tp : UnitType) (lv : Nat),
        l1.any (fun u => u.type == tp && u.level == lv)
          = l2.any (fun u => u.type == tp && u.level == lv) := by
  induction l1 with
  | nil =>
    intro l2 h tp lv
    cases l2 with
    | nil => rfl
    | cons v vs => simp at h
  | cons u us ih =>
    intro l2 h tp lv
    cases l2 with
    | nil => simp at h
    | cons v vs =>
      simp only [List.map_cons, List.cons.injEq] at h
      have h1 : u.type = v.type := congrArg Prod.fst h.1
      have h2 : u.level = v.level := congrArg Prod.snd h.1
      simp only [List.any_cons, h1, h2, ih vs h.2 tp lv]

/-- Shared closed form of `trainNewUnits`: with a CITIZEN entry present it
returns exactly the claim-side merged list. -/
theorem trainNewUnits_eq_spec (units newUnits : List PlayerUnit)
    (h : ∃ u ∈ units, u.type = UnitType.CITIZEN) :
    trainNewUnits units newUnits = some (trainedUnitsSpec units newUnits) := by
  have hs : (units.find? (fun u => u.type == UnitType.CITIZEN)).isSome := by
    rw [List.find?_isSome]
    obtain ⟨u, hu, ht⟩ := h
    exact ⟨u, hu, by simp [ht]⟩
  obtain ⟨c, hc⟩ := Option.isSome_iff_exists.mp hs
  unfold trainNewUnits
  simp only [hc]
  rw [foldl_add_quantity, zero_add]
  rw [objectAssign_of_le _ _
    (by simpa using List.length_filter_le _ (subtractFirstCitizen _ units))]
  unfold trainedUnitsSpec
  congr 1
  congr 1
  apply List.filter_congr
  intro nu _
  rw [any_match_eq_of_key_eq _ units
    (train_units2_key newUnits units ((newUnits.map (fun u => u.quantity)).sum))
    nu.type nu.level]

/-- C3: with a CITIZEN entry present, training merges as described — the
first CITIZEN entry is decreased by the total new quantity, pre-existing
units matching a new entry by type and level gain that entry's quantity,
unmatched new entries are appended unchanged, and all other units are
untouched. -/
theorem trainNewUnits_merges (units newUnits : List PlayerUnit)
    (h : ∃ u ∈ units, u.type = UnitType.CITIZEN) :
    trainNewUnits units newUnits = some (trainedUnitsSpec units newUnits) :=
  trainNewUnits_eq_spec units newUnits h

/-- Witness for C3: training three workers and four soldiers out of ten
citizens, with two workers already present. -/
theorem trainNewUnits_merges_witness :
    trainNewUnits [⟨UnitType.CITIZEN, 1, 10⟩, ⟨UnitType.WORKER, 1, 2⟩]
        [⟨UnitType.WORKER, 1, 3⟩, ⟨UnitType.OFFENSE, 1, 4⟩]
      = some [⟨UnitType.CITIZEN, 1, 3⟩, ⟨UnitType.WORKER, 1, 5⟩,
          ⟨UnitType.OFFENSE, 1, 4⟩] :=
  (trainNewUnits_merges [⟨UnitType.CITIZEN, 1, 10⟩, ⟨UnitType.WORKER, 1, 2⟩]
    [⟨UnitType.WORKER, 1, 3⟩, ⟨UnitType.OFFENSE, 1, 4⟩]
    ⟨⟨UnitType.CITIZEN, 1, 10⟩, by decide, rfl⟩).trans (by decide)

theorem population_eq_sum (units : List PlayerUnit) :
    population units = (units.map (fun u => u.quantity)).sum := by
  unfold population
  rw [foldl_add_quantity, zero_add]

theorem addFoundQuantity_quantity (newUnits : List PlayerUnit) (u : PlayerUnit) :
    (addFoundQuantity newUnits u).quantity
      = u.quantity + lookupQty newUnits (unitKey u) := by
  unfold addFoundQuantity matchingNewUnit lookupQty unitKey
  dsimp only
  cases h : newUnits.find? (fun nu => nu.type == u.type && nu.level == u.level) <;>
    simp [h]

theorem sum_map_addFoundQuantity (newUnits l : List PlayerUnit) :
    ((l.map (addFoundQuantity newUnits)).map (fun u => u.quantity)).sum
      = (l.map (fun u => u.quantity)).sum
        + (l.map (fun u => lookupQty newUnits (unitKey u))).sum := by
  induction l with
  | nil => simp
  | cons u us ih =>
    simp only [List.map_cons, List.sum_cons, ih, addFoundQuantity_quantity]
    ring

theorem sum_subtractFirstCitizen (total : Int) (units : List PlayerUnit)
    (h : ∃ u ∈ units, u.type = UnitType.CITIZEN) :
    ((subtractFirstCitizen total units).map (fun u => u.quantity)).sum
      = (units.map (fun u => u.quantity)).sum - total := by
  induction units with
  | nil => simp at h
  | cons u us ih =>
    unfold subtractFirstCitizen
    by_cases hc : (u.type == UnitType.CITIZEN) = true
    · rw [if_pos hc]
      simp only [List.map_cons, List.sum_cons]
      ring
    · have h' : ∃ v ∈ us, v.type = UnitType.CITIZEN := by
        obtain ⟨v, hv, ht⟩ := h
        rcases List.mem_cons.mp hv with rfl | hv'
        · exact absurd (by simp [ht]) hc
        · exact ⟨v, hv', ht⟩
      rw [if_neg hc]
      simp only [List.map_cons, List.sum_cons, ih h']
      ring

theorem lookupQty_eq_zero_of_not_mem (newUnits : List PlayerUnit)
    (k : UnitType × Nat) (h : k ∉ newUnits.map unitKey) :
    lookupQty newUnits k = 0 := by
  unfold lookupQty
  have hnone : newUnits.find? (fun nu => nu.type == k.1 && nu.level == k.2) = none := by
    rw [List.find?_eq_none]
    intro nu hnu hpred
    apply h
    simp only [Bool.and_eq_true, beq_iff_eq] at hpred
    exact List.mem_map.mpr ⟨nu, hnu, by simp [unitKey, Prod.ext_iff, hpred.1, hpred.2]⟩
  rw [hnone]

theorem lookupQty_cons_self (nu : PlayerUnit) (N : List PlayerUnit) :
    lookupQty (nu :: N) (unitKey nu) = nu.quantity := by
  unfold lookupQty unitKey
  rw [List.find?_cons_of_pos _ (by simp)]

theorem lookupQty_cons_of_ne (nu : PlayerUnit) (N : List PlayerUnit)
    (k : UnitType × Nat) (h : unitKey nu ≠ k) :
    lookupQty (nu :: N) k = lookupQty N k := by
  unfold lookupQty
  rw [List.find?_cons_of_neg _ ?_]
  simp only [Bool.and_eq_true, beq_iff_eq, not_and]
  intro h1 h2
  exact absurd (by simp [unitKey, Prod.ext_iff, h1, h2]) h

theorem sum_lookup_cons (nu : PlayerUnit) (N : List PlayerUnit)
    (ks : List (UnitType × Nat)) (hks : ks.Nodup)
    (h0 : lookupQty N (unitKey nu) = 0) :
    (ks.map (fun k => lookupQty (nu :: N) k)).sum
      = (if unitKey nu ∈ ks then nu.quantity else 0)
        + (ks.map (fun k => lookupQty N k)).sum := by
  induction ks with
  | nil => simp
  | cons k ks' ih =>
    obtain ⟨hknot, hks'⟩ := List.nodup_cons.mp hks
    by_cases he : unitKey nu = k
    · subst he
      rw [List.map_cons, List.sum_cons, lookupQty_cons_self, ih hks',
        if_neg hknot, if_pos (List.mem_cons_self _ _),
        List.map_cons, List.sum_cons, h0]
    · rw [List.map_cons, List.sum_cons, lookupQty_cons_of_ne nu N k he, ih hks',
        List.map_cons, List.sum_cons]
      by_cases hm : unitKey nu ∈ ks'
      · rw [if_pos hm, if_pos (List.mem_cons_of_mem _ hm)]
        ring
      · rw [if_neg hm, if_neg (by simp [List.mem_cons, he, hm])]
        ring

theorem sum_lookup_add_unmatched (N : List PlayerUnit)
    (ks : List (UnitType × Nat)) (hks : ks.Nodup)
    (hN : (N.map unitKey).Nodup) :
    (ks.map (fun k => lookupQty N k)).sum
      + ((N.filter (fun nu => !(decide (unitKey nu ∈ ks)))).map
          (fun u => u.quantity)).sum
      = (N.map (fun u => u.quantity)).sum := by
  induction N with
  | nil => simp [lookupQty]
  | cons nu N' ih =>
    obtain ⟨hnu, hN'⟩ := List.nodup_cons.mp hN
    have h0 : lookupQty N' (unitKey nu) = 0 :=
      lookupQty_eq_zero_of_not_mem N' (unitKey nu) hnu
    rw [sum_lookup_cons nu N' ks hks h0]
    by_cases hmem : unitKey nu ∈ ks
    · rw [if_pos hmem, List.filter_cons_of_neg (by simp [hmem]),
        List.map_cons, List.sum_cons]
      linarith [ih hN']
    · rw [if_neg hmem, List.filter_cons_of_pos (by simp [hmem]),
        List.map_cons, List.map_cons, List.sum_cons, List.sum_cons]
      linarith [ih hN']

theorem any_match_eq_mem_keys (units : List PlayerUnit) (nu : PlayerUnit) :
    units.any (fun u => u.type == nu.type && u.level == nu.level)
      = decide (unitKey nu ∈ units.map unitKey) := by
  induction units with
  | nil => simp
  | cons u us ih =>
    have hhead : (u.type == nu.type && u.level == nu.level)
        = decide (unitKey nu = unitKey u) := by
      rw [Bool.eq_iff_iff]
      simp only [Bool.and_eq_true, beq_iff_eq, decide_eq_true_eq, unitKey,
        Prod.mk.injEq]
      constructor
      · rintro ⟨a, b⟩
        exact ⟨a.symm, b.symm⟩
      · rintro ⟨a, b⟩
        exact ⟨a.symm, b.symm⟩
    simp only [List.any_cons, List.map_cons, List.mem_cons, Bool.decide_or,
      hhead, ih]

/-- C8 counterexample: with two WORKER entries of the same type and level
already present, training two more workers bumps both entries, so the
population jumps from 12 to 14 — training does not conserve population on
lists with duplicate (type, level) keys. -/
theorem population_not_conserved_with_duplicate_keys :
    trainNewUnits
        [⟨UnitType.CITIZEN, 1, 10⟩, ⟨UnitType.WORKER, 1, 1⟩, ⟨UnitType.WORKER, 1, 1⟩]
        [⟨UnitType.WORKER, 1, 2⟩]
      = some [⟨UnitType.CITIZEN, 1, 8⟩, ⟨UnitType.WORKER, 1, 3⟩,
          ⟨UnitType.WORKER, 1, 3⟩] ∧
    population [⟨UnitType.CITIZEN, 1, 8⟩, ⟨UnitType.WORKER, 1, 3⟩,
        ⟨UnitType.WORKER, 1, 3⟩] = 14 ∧
    population [⟨UnitType.CITIZEN, 1, 10⟩, ⟨UnitType.WORKER, 1, 1⟩,
        ⟨UnitType.WORKER, 1, 1⟩] = 12 := by
  decide

/-- C8 (amended): when the units list contains a CITIZEN entry and neither
the units list nor the new-units list repeats a (type, level) key,
training conserves the population: the citizen decrease exactly offsets
the quantities added to matched units or appended. -/
theorem population_conserved_of_nodup_keys (units newUnits : List PlayerUnit)
    (hc : ∃ u ∈ units, u.type = UnitType.CITIZEN)
    (hu : (units.map unitKey).Nodup) (hn : (newUnits.map unitKey).Nodup) :
    ∃ merged, trainNewUnits units newUnits = some merged ∧
      population merged = population units := by
  refine ⟨trainedUnitsSpec units newUnits, trainNewUnits_eq_spec units newUnits hc, ?_⟩
  rw [population_eq_sum, population_eq_sum]
  unfold trainedUnitsSpec
  rw [List.map_append, List.sum_append, sum_map_addFoundQuantity,
    sum_subtractFirstCitizen _ _ hc]
  have hmapkey : (subtractFirstCitizen ((newUnits.map (fun u => u.quantity)).sum)
        units).map (fun u => lookupQty newUnits (unitKey u))
      = (units.map unitKey).map (fun k => lookupQty newUnits k) := by
    rw [show (fun u : PlayerUnit => lookupQty newUnits (unitKey u))
        = (fun k => lookupQty newUnits k) ∘ unitKey from rfl,
      ← List.map_map, subtractFirstCitizen_key]
  rw [hmapkey]
  have hfilter : newUnits.filter (fun newUnit =>
        !(units.any (fun u => u.type == newUnit.type && u.level == newUnit.level)))
      = newUnits.filter (fun nu => !(decide (unitKey nu ∈ units.map unitKey))) := by
    apply List.filter_congr
    intro nu _
    rw [any_match_eq_mem_keys units nu]
  rw [hfilter]
  linarith [sum_lookup_add_unmatched newUnits (units.map unitKey) hu hn]

/-- Witness for the amended C8 on duplicate-free inputs. -/
theorem population_conserved_of_nodup_keys_witness :
    ∃ merged, trainNewUnits
        [⟨UnitType.CITIZEN, 1, 9⟩, ⟨UnitType.DEFENSE, 1, 1⟩]
        [⟨UnitType.DEFENSE, 1, 2⟩, ⟨UnitType.SPY, 1, 3⟩] = some merged ∧
      population merged
        = population [⟨UnitType.CITIZEN, 1, 9⟩, ⟨UnitType.DEFENSE, 1, 1⟩] :=
  population_conserved_of_nodup_keys
    [⟨UnitType.CITIZEN, 1, 9⟩, ⟨UnitType.DEFENSE, 1, 1⟩]
    [⟨UnitType.DEFENSE, 1, 2⟩, ⟨UnitType.SPY, 1, 3⟩]
    ⟨⟨UnitType.CITIZEN, 1, 9⟩, by decide, rfl⟩ (by decide) (by decide)

end DarkCurse
